import Mathlib

/-!
A verification development for the Flexible Assembly System (FAS) simulator:
a shallow embedding of the Warehouse inventory, the AGV state machine and
the AssemblyStation order-processing loop, with theorems about the
specified behaviour of each operation.

Conventions of the embedding:
* `std::map<std::string, int>` is modelled as a list of key-value pairs
  read through `mapFind` (the first matching key wins); a genuine map has
  no repeated key, which appears as a `Nodup` hypothesis where it matters.
* Mutexes and condition variables guard the C++ code but do not change the
  sequential meaning of any single operation, so each member function
  becomes a pure function from the old state (and arguments) to the new
  state and result.
* Sleeps only consume wall-clock time; they carry no state and are dropped.
-/

namespace FAS

/-- `std::map<std::string,int>` as a list of key-value pairs. -/
abbrev CompMap := List (String × Int)

/-- `map::find`: the value at the first matching key, if any. -/
def mapFind : CompMap → String → Option Int
  | [], _ => none
  | (k, v) :: rest, c => if k = c then some v else mapFind rest c

/-- The write half of `map::operator[] op= e`: replace the value at an
existing key, or insert the key (C++ `operator[]` default-inserts). -/
def mapStore : CompMap → String → Int → CompMap
  | [], k, v => [(k, v)]
  | (k', v') :: rest, k, v =>
      if k' = k then (k', v) :: rest else (k', v') :: mapStore rest k v

/-- The read half of `map::operator[]`: the stored value, or the
value-initialised 0 for an absent key. -/
def mapGet (m : CompMap) (k : String) : Int := (mapFind m k).getD 0

/-- Warehouse.h data: component inventory and finished-product counts. -/
structure Warehouse where
  components : CompMap
  finished_products : CompMap
deriving DecidableEq, Repr

/-- The availability loop shared by `Warehouse::has_components` and the
check phase of `Warehouse::reserve_components`: fail on the first required
component that is absent (`it == components.end()`) or short
(`it->second < req.second`). -/
def hasAll (components : CompMap) : CompMap → Bool
  | [] => true
  | (cid, q) :: rest =>
      match mapFind components cid with
      | none => false
      | some avail => if avail < q then false else hasAll components rest

/-- The deduction loop of `Warehouse::reserve_components`:
`components[req.first] -= req.second` for each required entry in order. -/
def deductAll (components : CompMap) : CompMap → CompMap
  | [] => components
  | (cid, q) :: rest => deductAll (mapStore components cid (mapGet components cid - q)) rest

/-- `Warehouse::has_components` (Warehouse.cpp): read-only availability
check; in the embedding it returns only the Bool, the state is untouched
by construction. -/
def Warehouse.has_components (w : Warehouse) (required : CompMap) : Bool :=
  hasAll w.components required

/-- `Warehouse::reserve_components` (Warehouse.cpp): under one lock, check
every required component and only then deduct every required quantity;
return false (before any mutation) if some component is absent or short. -/
def Warehouse.reserve_components (w : Warehouse) (required : CompMap) :
    Bool × Warehouse :=
  if hasAll w.components required then
    (true, { w with components := deductAll w.components required })
  else
    (false, w)

/-- `Warehouse::add_component`: `components[component_id] += quantity`. -/
def Warehouse.add_component (w : Warehouse) (component_id : String) (quantity : Int) :
    Warehouse :=
  { w with components := (mapStore w.components component_id
      (mapGet w.components component_id + quantity)) }

/-- `Warehouse::add_finished_product`: `finished_products[product_id]++`. -/
def Warehouse.add_finished_product (w : Warehouse) (product_id : String) : Warehouse :=
  { w with finished_products := (mapStore w.finished_products product_id
      (mapGet w.finished_products product_id + 1)) }

/-- `Warehouse::get_component_quantity`: the stored value, or 0 when the
component is absent (`it != components.end() ? it->second : 0`). -/
def Warehouse.get_component_quantity (w : Warehouse) (component_id : String) : Int :=
  (mapFind w.components component_id).getD 0

/-- `Warehouse::get_finished_product_count`: stored count or 0. -/
def Warehouse.get_finished_product_count (w : Warehouse) (product_id : String) : Int :=
  (mapFind w.finished_products product_id).getD 0

/-! ### Basic lemmas about the map model -/

theorem mapFind_mapStore (m : CompMap) (k : String) (v : Int) (c : String) :
    mapFind (mapStore m k v) c = if k = c then some v else mapFind m c := by
  induction m with
  | nil => simp [mapStore, mapFind]
  | cons hd tl ih =>
      obtain ⟨k', v'⟩ := hd
      by_cases hk : k' = k
      · subst hk
        by_cases hc : k' = c <;> simp [mapStore, mapFind, hc]
      · by_cases hc : k' = c
        · subst hc
          simp [mapStore, mapFind, hk, (by simpa using Ne.symm hk : ¬ k = k')]
        · simp [mapStore, mapFind, hk, hc, ih]

theorem hasAll_iff (m req : CompMap) :
    hasAll m req = true ↔ ∀ p ∈ req, ∃ v, mapFind m p.1 = some v ∧ p.2 ≤ v := by
  induction req with
  | nil => simp [hasAll]
  | cons hd tl ih =>
      obtain ⟨cid, q⟩ := hd
      constructor
      · intro h
        cases hfind : mapFind m cid with
        | none => simp [hasAll, hfind] at h
        | some avail =>
            simp only [hasAll, hfind] at h
            by_cases hlt : avail < q
            · simp [hlt] at h
            · intro p hp
              rcases List.mem_cons.mp hp with hp | hp
              · subst hp
                exact ⟨avail, hfind, not_lt.mp hlt⟩
              · exact (ih.mp (by simpa [hlt] using h)) p hp
      · intro h
        rcases h (cid, q) (List.mem_cons_self _ _) with ⟨v, hv, hle⟩
        simp only [hasAll, hv, not_lt.mpr hle, if_neg (not_lt.mpr hle)]
        exact ih.mpr fun p hp => h p (List.mem_cons_of_mem _ hp)

theorem deductAll_find_notMem (req : CompMap) (m : CompMap) (c : String)
    (h : c ∉ req.map Prod.fst) :
    mapFind (deductAll m req) c = mapFind m c := by
  induction req generalizing m with
  | nil => rfl
  | cons hd tl ih =>
      obtain ⟨k, q⟩ := hd
      simp only [List.map_cons, List.mem_cons] at h
      push_neg at h
      rw [deductAll, ih _ h.2, mapFind_mapStore, if_neg (by exact fun hkc => h.1 hkc.symm)]

theorem deductAll_find_mem (req : CompMap) (m : CompMap) (c : String) (q : Int)
    (hnd : (req.map Prod.fst).Nodup) (h : (c, q) ∈ req) :
    mapFind (deductAll m req) c = some (mapGet m c - q) := by
  induction req generalizing m with
  | nil => cases h
  | cons hd tl ih =>
      obtain ⟨k, q'⟩ := hd
      simp only [List.map_cons, List.nodup_cons] at hnd
      rcases List.mem_cons.mp h with heq | hmem
      · cases heq
        have hc : c ∉ tl.map Prod.fst := hnd.1
        rw [deductAll, deductAll_find_notMem _ _ _ hc, mapFind_mapStore, if_pos rfl]
      · have hck : k ≠ c := fun hkc =>
          hnd.1 (hkc ▸ List.mem_map.mpr ⟨(c, q), hmem, rfl⟩)
        rw [deductAll, ih _ hnd.2 hmem]
        congr 1
        unfold mapGet
        rw [mapFind_mapStore, if_neg hck]

/-! ### C1: reservation is all-or-nothing -/

/-- **C1.** `Warehouse::reserve_components` is all-or-nothing: when it
returns true it has deducted exactly the requested quantity of every
requested component, left every other component untouched and left the
finished products alone; when it returns false the warehouse is exactly as
before, so no incomplete deduction ever happens. The `Nodup` hypothesis
says the required map is a genuine `std::map` (one entry per key). -/
theorem C1_reserve_all_or_nothing (w : Warehouse) (required : CompMap)
    (hnd : (required.map Prod.fst).Nodup) :
    ((w.reserve_components required).1 = true →
        (∀ p ∈ required,
          (w.reserve_components required).2.get_component_quantity p.1
            = w.get_component_quantity p.1 - p.2) ∧
        (∀ c, c ∉ required.map Prod.fst →
          (w.reserve_components required).2.get_component_quantity c
            = w.get_component_quantity c) ∧
        (w.reserve_components required).2.finished_products = w.finished_products) ∧
    ((w.reserve_components required).1 = false →
        (w.reserve_components required).2 = w) := by
  unfold Warehouse.reserve_components
  by_cases h : hasAll w.components required = true
  · simp only [h, if_true]
    refine ⟨fun _ => ⟨?_, ?_, trivial⟩, fun hf => by simp at hf⟩
    · intro p hp
      have hfind := deductAll_find_mem required w.components p.1 p.2 hnd hp
      simp [Warehouse.get_component_quantity, hfind, mapGet]
    · intro c hc
      have hfind := deductAll_find_notMem required w.components c hc
      simp [Warehouse.get_component_quantity, hfind]
  · simp only [h, if_false, Bool.false_eq_true]
    exact ⟨fun ht => absurd ht (by simp), fun _ => trivial⟩

/-- Concrete inventory for witnesses: five of c1, three of c2. -/
def wA : Warehouse := ⟨[("c1", 5), ("c2", 3)], []⟩

/-- Concrete request for witnesses: two of c1, one of c2. -/
def reqA : CompMap := [("c1", 2), ("c2", 1)]

/-- C1 instantiated at a concrete warehouse and request. -/
theorem C1_reserve_all_or_nothing_witness :
    ((reqA.map Prod.fst).Nodup) ∧
    (((wA.reserve_components reqA).1 = true →
        (∀ p ∈ reqA,
          (wA.reserve_components reqA).2.get_component_quantity p.1
            = wA.get_component_quantity p.1 - p.2) ∧
        (∀ c, c ∉ reqA.map Prod.fst →
          (wA.reserve_components reqA).2.get_component_quantity c
            = wA.get_component_quantity c) ∧
        (wA.reserve_components reqA).2.finished_products = wA.finished_products) ∧
      ((wA.reserve_components reqA).1 = false →
        (wA.reserve_components reqA).2 = wA)) :=
  ⟨by decide, C1_reserve_all_or_nothing wA reqA (by decide)⟩

/-! ### C9: has_components characterised -/

/-- **C9.** `Warehouse::has_components` returns true exactly when every
entry of the required map names a component that is present in the
inventory with at least the requested quantity. In the embedding the
function returns only a Bool and takes the warehouse as a value, so it can
change no component and no finished product by construction. -/
theorem C9_has_components_iff (w : Warehouse) (required : CompMap) :
    w.has_components required = true ↔
      ∀ p ∈ required, ∃ v, mapFind w.components p.1 = some v ∧ p.2 ≤ v :=
  hasAll_iff w.components required

/-! ### C2: non-negativity of inventory under warehouse operations -/

/-- One externally invocable mutating warehouse operation. -/
inductive WOp where
  | reserve (required : CompMap)
  | addComponent (component_id : String) (quantity : Int)
  | addFinished (product_id : String)

/-- Apply one operation; the Bool result of a reservation is discarded. -/
def applyOp (w : Warehouse) : WOp → Warehouse
  | .reserve required => (w.reserve_components required).2
  | .addComponent c q => w.add_component c q
  | .addFinished p => w.add_finished_product p

/-- Apply a whole sequence of operations in order. -/
def applyOps (w : Warehouse) : List WOp → Warehouse
  | [] => w
  | op :: ops => applyOps (applyOp w op) ops

/-- Every observable component quantity and finished-product count is
non-negative. -/
def Warehouse.nonneg (w : Warehouse) : Prop :=
  (∀ c, 0 ≤ w.get_component_quantity c) ∧
  (∀ p, 0 ≤ w.get_finished_product_count p)

/-- **C2, counterexample.** `Warehouse::add_component` puts no condition on
its quantity argument: adding a negative quantity to the (non-negative)
empty warehouse drives a component quantity below zero, so not *every*
operation sequence preserves non-negativity. -/
theorem C2_counterexample :
    (Warehouse.mk [] []).nonneg ∧
    ¬ (applyOps (Warehouse.mk [] []) [WOp.addComponent "c1" (-1)]).nonneg := by
  constructor
  · refine ⟨fun c => ?_, fun p => ?_⟩ <;>
      simp [Warehouse.get_component_quantity, Warehouse.get_finished_product_count, mapFind]
  · intro hnn
    have h := hnn.1 "c1"
    simp [applyOps, applyOp, Warehouse.add_component, Warehouse.get_component_quantity,
      mapStore, mapFind, mapGet] at h

/-- An operation as the running system actually issues it: a reservation
carries a genuine map (no repeated key), and `add_component` receives a
non-negative quantity (initial stock and deliveries). -/
def WOp.admissible : WOp → Prop
  | .reserve required => (required.map Prod.fst).Nodup
  | .addComponent _ q => 0 ≤ q
  | .addFinished _ => True

/-- One admissible operation preserves non-negativity: a reservation only
deducts quantities its own availability check just bounded, and the two
add operations add non-negative amounts. -/
theorem nonneg_applyOp (w : Warehouse) (op : WOp) (hw : w.nonneg)
    (hop : op.admissible) : (applyOp w op).nonneg := by
  obtain ⟨hwc, hwp⟩ := hw
  cases op with
  | reserve required =>
      simp only [applyOp, Warehouse.reserve_components]
      by_cases h : hasAll w.components required = true
      · simp only [h, if_true]
        refine ⟨fun c => ?_, hwp⟩
        by_cases hc : c ∈ required.map Prod.fst
        · rcases List.mem_map.mp hc with ⟨p, hp, hpc⟩
          have hfind := deductAll_find_mem required w.components p.1 p.2 hop hp
          rcases (hasAll_iff w.components required).mp h p hp with ⟨v, hv, hle⟩
          have hget : mapGet w.components p.1 = v := by simp [mapGet, hv]
          subst hpc
          simp only [Warehouse.get_component_quantity, hfind, Option.getD_some, hget]
          omega
        · have hfind := deductAll_find_notMem required w.components c hc
          simpa [Warehouse.get_component_quantity, hfind] using hwc c
      · simp only [h, if_false]
        exact ⟨hwc, hwp⟩
  | addComponent c0 q =>
      refine ⟨fun c => ?_, hwp⟩
      simp only [applyOp, Warehouse.add_component, Warehouse.get_component_quantity,
        mapFind_mapStore]
      by_cases hc : c0 = c
      · have := hwc c0
        simp only [Warehouse.get_component_quantity, mapGet] at this ⊢
        have hq : (0:Int) ≤ q := hop
        simp only [if_pos hc, Option.getD_some]
        subst hc
        omega
      · simpa [Warehouse.get_component_quantity, if_neg hc] using hwc c
  | addFinished p0 =>
      refine ⟨hwc, fun p => ?_⟩
      simp only [applyOp, Warehouse.add_finished_product,
        Warehouse.get_finished_product_count, mapFind_mapStore]
      by_cases hp : p0 = p
      · have := hwp p0
        simp only [Warehouse.get_finished_product_count, mapGet] at this ⊢
        simp only [if_pos hp, Option.getD_some]
        subst hp
        omega
      · simpa [Warehouse.get_finished_product_count, if_neg hp] using hwp p

/-- **C2, amended.** For every sequence of admissible operations — each
reservation a genuine map, each `add_component` with a non-negative
quantity, as the simulator issues them — every component quantity and every
finished-product count stays non-negative. (The unamended claim fails only
because `add_component` accepts a negative quantity unchecked.) -/
theorem C2_nonneg_invariant (w : Warehouse) (ops : List WOp) (hw : w.nonneg)
    (hops : ∀ op ∈ ops, op.admissible) : (applyOps w ops).nonneg := by
  induction ops generalizing w with
  | nil => exact hw
  | cons op ops ih =>
      exact ih (applyOp w op)
        (nonneg_applyOp w op hw (hops op (List.mem_cons_self _ _)))
        (fun o ho => hops o (List.mem_cons_of_mem _ ho))

/-- Concrete operation sequence for the C2 witness. -/
def opsA : List WOp :=
  [WOp.addComponent "c1" 5, WOp.reserve [("c1", 2)], WOp.addFinished "p1"]

/-- C2 (amended) instantiated on a concrete operation sequence. -/
theorem C2_nonneg_invariant_witness :
    (Warehouse.mk [] []).nonneg ∧ (∀ op ∈ opsA, op.admissible) ∧
    (applyOps (Warehouse.mk [] []) opsA).nonneg := by
  have hw : (Warehouse.mk [] []).nonneg := by
    refine ⟨fun c => ?_, fun p => ?_⟩ <;>
      simp [Warehouse.get_component_quantity, Warehouse.get_finished_product_count, mapFind]
  have hops : ∀ op ∈ opsA, op.admissible := by
    intro op hop
    simp only [opsA, List.mem_cons, List.not_mem_nil, or_false] at hop
    rcases hop with rfl | rfl | rfl <;> simp [WOp.admissible]
  exact ⟨hw, hops, C2_nonneg_invariant _ _ hw hops⟩

/-! ### The AGV state machine (AGV.h / AGV.cpp) -/

/-- `enum class AGVState` (AGV.h). -/
inductive AGVState where
  | IDLE
  | TO_WAREHOUSE
  | PICKING
  | TO_STATION
  | DROPPING
  | RETURNING
deriving DecidableEq, Repr

/-- `struct AGVTask` (AGV.h). -/
structure AGVTask where
  component_id : String
  quantity : Int
  destination : String
  is_complete : Bool
deriving DecidableEq, Repr

/-- The default-constructed `AGVTask()`: empty strings, quantity 0,
not complete. An AGV "holds no task" when `component_id` is empty. -/
def AGVTask.empty : AGVTask := ⟨"", 0, "", false⟩

/-- The per-AGV data of class `AGV` (AGV.h): state, current task, the four
configured phase durations, and the two statistics counters. -/
structure AGV where
  agv_id : Int
  state : AGVState
  current_task : AGVTask
  travel_time_warehouse_minutes : Int
  travel_time_station_minutes : Int
  picking_time_minutes : Int
  dropping_time_minutes : Int
  total_operations : Int
  busy_time_minutes : Int
deriving DecidableEq, Repr

/-- The `AGV(int id)` constructor: IDLE, empty task, default durations
travel-to-warehouse 2, travel-to-station 3, picking 1, dropping 1, zero
statistics. -/
def AGV.init (id : Int) : AGV :=
  { agv_id := id, state := AGVState.IDLE, current_task := AGVTask.empty,
    travel_time_warehouse_minutes := 2, travel_time_station_minutes := 3,
    picking_time_minutes := 1, dropping_time_minutes := 1,
    total_operations := 0, busy_time_minutes := 0 }

/-- `AGV::assign_task`: under the state lock, store the task only when the
AGV is IDLE and its current task is empty; otherwise do nothing. -/
def AGV.assign_task (a : AGV) (component_id : String) (quantity : Int)
    (destination : String) : AGV :=
  if a.state = AGVState.IDLE ∧ a.current_task.component_id = "" then
    { a with current_task :=
        { component_id := component_id, quantity := quantity,
          destination := destination, is_complete := false } }
  else a

/-- `AGV::is_idle`: IDLE state and empty current task. -/
def AGV.is_idle (a : AGV) : Bool :=
  decide (a.state = AGVState.IDLE ∧ a.current_task.component_id = "")

/-- The busy-time increment added at the end of one task in `AGV::run`:
the sum of the four configured phase durations. -/
def AGV.cycleDuration (a : AGV) : Int :=
  a.travel_time_warehouse_minutes + a.picking_time_minutes +
    a.travel_time_station_minutes + a.dropping_time_minutes

/-- The states entered by the successive `transition_to` calls during one
execution of the task body of `AGV::run`, in program order:
TO_WAREHOUSE, PICKING, TO_STATION, DROPPING and finally IDLE again. -/
def taskCycleStates : List AGVState :=
  [AGVState.TO_WAREHOUSE, AGVState.PICKING, AGVState.TO_STATION,
   AGVState.DROPPING, AGVState.IDLE]

/-- One iteration of the loop in `AGV::run`: with no task the loop keeps
waiting (no state change); with a task it walks the transport cycle and
then adds the cycle duration to busy time, increments `total_operations`,
resets the task to `AGVTask()` and transitions back to IDLE. -/
def AGV.runCycle (a : AGV) : AGV :=
  if a.current_task.component_id = "" then a
  else
    { a with
      state := AGVState.IDLE,
      current_task := AGVTask.empty,
      busy_time_minutes := a.busy_time_minutes + a.cycleDuration,
      total_operations := a.total_operations + 1 }

/-- The states `AGV::run` passes through during one loop iteration (empty
when the AGV just keeps waiting for a task). -/
def AGV.runCycleTrace (a : AGV) : List AGVState :=
  if a.current_task.component_id = "" then [] else taskCycleStates

/-- Run the AGV through a list of task assignments, one `assign_task`
followed by one loop iteration each; returns the final AGV and the
concatenated state trace. -/
def AGV.runWithTasks (a : AGV) : List (String × Int × String) → AGV × List AGVState
  | [] => (a, [])
  | (c, q, d) :: ts =>
      let a1 := a.assign_task c q d
      let rest := a1.runCycle.runWithTasks ts
      (rest.1, a1.runCycleTrace ++ rest.2)

/-! ### C4: the assignment contract -/

/-- **C4.** `AGV::assign_task` stores the given component id, quantity and
destination (with `is_complete` reset) exactly when the AGV is IDLE with
an empty task — the state itself stays IDLE; in every other situation the
call leaves the whole AGV, state and task included, unchanged. -/
theorem C4_assign_task_iff_idle (a : AGV) (c : String) (q : Int) (d : String) :
    (a.state = AGVState.IDLE ∧ a.current_task.component_id = "" →
      a.assign_task c q d = { a with current_task := ⟨c, q, d, false⟩ }) ∧
    (¬ (a.state = AGVState.IDLE ∧ a.current_task.component_id = "") →
      a.assign_task c q d = a) := by
  constructor <;> intro h <;> simp [AGV.assign_task, h]

/-! ### C3: the observable state sequence -/

/-- From an IDLE AGV with an empty task, every assigned task (with a
non-empty component id) produces exactly one full transport cycle of
states; the whole trace is the concatenation of those cycles. -/
theorem runWithTasks_trace (tasks : List (String × Int × String)) (a : AGV)
    (hs : a.state = AGVState.IDLE) (ht : a.current_task.component_id = "")
    (h : ∀ t ∈ tasks, t.1 ≠ "") :
    (a.runWithTasks tasks).2 = (List.replicate tasks.length taskCycleStates).flatten := by
  induction tasks generalizing a with
  | nil => rfl
  | cons t ts ih =>
      obtain ⟨c, q, d⟩ := t
      have hc : c ≠ "" := h (c, q, d) (List.mem_cons_self _ _)
      have hcond : a.state = AGVState.IDLE ∧ a.current_task.component_id = "" := ⟨hs, ht⟩
      have h1 : a.assign_task c q d = { a with current_task := ⟨c, q, d, false⟩ } := by
        simp [AGV.assign_task, hcond]
      have h2 : (a.assign_task c q d).runCycleTrace = taskCycleStates := by
        rw [h1]; simp [AGV.runCycleTrace, hc]
      have h3s : (a.assign_task c q d).runCycle.state = AGVState.IDLE := by
        rw [h1]; simp [AGV.runCycle, hc]
      have h3t : (a.assign_task c q d).runCycle.current_task.component_id = "" := by
        rw [h1]; simp [AGV.runCycle, hc, AGVTask.empty]
      simp only [AGV.runWithTasks]
      rw [h2, ih _ h3s h3t (fun t htm => h t (List.mem_cons_of_mem _ htm))]
      simp [List.replicate_succ]

/-- **C3, counterexample.** The code's completed cycle goes straight from
DROPPING back to IDLE: after one full task, the observed state sequence is
IDLE, TO_WAREHOUSE, PICKING, TO_STATION, DROPPING, IDLE — not a prefix of
the claimed cycle IDLE, TO_WAREHOUSE, PICKING, TO_STATION, DROPPING,
RETURNING, IDLE, and RETURNING never occurs at all. -/
theorem C3_counterexample :
    ¬ (AGVState.IDLE :: ((AGV.init 1).runWithTasks [("c1", 1, "ASSEMBLY_STATION")]).2
        <+: [AGVState.IDLE, AGVState.TO_WAREHOUSE, AGVState.PICKING,
             AGVState.TO_STATION, AGVState.DROPPING, AGVState.RETURNING,
             AGVState.IDLE]) := by
  decide

/-- **C3, amended.** For every AGV started fresh and every list of genuine
task assignments, the observed state sequence is exactly the initial IDLE
followed by one cycle TO_WAREHOUSE, PICKING, TO_STATION, DROPPING, IDLE per
completed task — no other transition occurs, and in particular the
RETURNING state is never entered (the code declares it but never
transitions into it, returning to IDLE directly after DROPPING). -/
theorem C3_state_cycle (id : Int) (tasks : List (String × Int × String))
    (h : ∀ t ∈ tasks, t.1 ≠ "") :
    AGVState.IDLE :: ((AGV.init id).runWithTasks tasks).2
      = AGVState.IDLE :: (List.replicate tasks.length taskCycleStates).flatten ∧
    AGVState.RETURNING ∉ AGVState.IDLE :: ((AGV.init id).runWithTasks tasks).2 := by
  have htr := runWithTasks_trace tasks (AGV.init id) rfl rfl h
  refine ⟨by rw [htr], ?_⟩
  rw [htr]
  intro hmem
  rcases List.mem_cons.mp hmem with hmem | hmem
  · exact absurd hmem (by decide)
  · rcases List.mem_flatten.mp hmem with ⟨l, hl, hml⟩
    rw [List.eq_of_mem_replicate hl] at hml
    exact absurd hml (by decide)

/-- C3 (amended) instantiated on two concrete tasks. -/
theorem C3_state_cycle_witness :
    (∀ t ∈ [("c1", (1:Int), "ASSEMBLY_STATION"), ("c2", 2, "ASSEMBLY_STATION")],
        t.1 ≠ "") ∧
    (AGVState.IDLE ::
        ((AGV.init 7).runWithTasks
          [("c1", 1, "ASSEMBLY_STATION"), ("c2", 2, "ASSEMBLY_STATION")]).2
      = AGVState.IDLE ::
        (List.replicate
          ([("c1", (1:Int), "ASSEMBLY_STATION"), ("c2", 2, "ASSEMBLY_STATION")]).length
          taskCycleStates).flatten ∧
    AGVState.RETURNING ∉ AGVState.IDLE ::
        ((AGV.init 7).runWithTasks
          [("c1", 1, "ASSEMBLY_STATION"), ("c2", 2, "ASSEMBLY_STATION")]).2) :=
  ⟨by decide, C3_state_cycle 7 _ (by decide)⟩

/-! ### C7: what completing one task does -/

/-- A concrete AGV holding a task, used by the C7 statements. -/
def agvBusy : AGV := (AGV.init 1).assign_task "c1" 1 "ASSEMBLY_STATION"

/-- **C7, counterexample.** The completed cycle contains no RETURNING leg:
the trace never enters RETURNING, and the busy-time increment is exactly
the sum 2+1+3+1 of the four configured phase durations (travel to
warehouse, picking, travel to station, dropping) — there is no configured
RETURNING duration in the code at all, so no such leg is included. -/
theorem C7_counterexample :
    AGVState.RETURNING ∉ agvBusy.runCycleTrace ∧
    agvBusy.runCycle.busy_time_minutes - agvBusy.busy_time_minutes
      = 2 + 1 + 3 + 1 := by
  decide

/-- **C7, amended.** When an AGV finishes a task cycle it increments
`total_operations` by exactly one, adds the sum of the four configured
phase durations (travel to warehouse, picking, travel to station,
dropping — the cycle has no RETURNING leg and no RETURNING duration
exists) to its busy time, clears its current task to the empty task, and
returns to IDLE. -/
theorem C7_cycle_completion (a : AGV) (h : a.current_task.component_id ≠ "") :
    a.runCycle.total_operations = a.total_operations + 1 ∧
    a.runCycle.busy_time_minutes
      = a.busy_time_minutes + (a.travel_time_warehouse_minutes + a.picking_time_minutes
          + a.travel_time_station_minutes + a.dropping_time_minutes) ∧
    a.runCycle.current_task = AGVTask.empty ∧
    a.runCycle.state = AGVState.IDLE ∧
    AGVState.RETURNING ∉ a.runCycleTrace := by
  refine ⟨?_, ?_, ?_, ?_, ?_⟩ <;>
    simp [AGV.runCycle, AGV.runCycleTrace, h, AGV.cycleDuration, taskCycleStates]

/-- C7 (amended) instantiated at a concrete AGV holding a task. -/
theorem C7_cycle_completion_witness :
    agvBusy.current_task.component_id ≠ "" ∧
    (agvBusy.runCycle.total_operations = agvBusy.total_operations + 1 ∧
     agvBusy.runCycle.busy_time_minutes
       = agvBusy.busy_time_minutes + (agvBusy.travel_time_warehouse_minutes
           + agvBusy.picking_time_minutes + agvBusy.travel_time_station_minutes
           + agvBusy.dropping_time_minutes) ∧
     agvBusy.runCycle.current_task = AGVTask.empty ∧
     agvBusy.runCycle.state = AGVState.IDLE ∧
     AGVState.RETURNING ∉ agvBusy.runCycleTrace) :=
  ⟨by decide, C7_cycle_completion agvBusy (by decide)⟩

/-! ### Orders, products and the AssemblyStation (Order.h, AssemblyStation.h/.cpp) -/

/-- `struct Order` (Order.h) with its default constructor values. -/
structure Order where
  release_hour : Int := 0
  release_minute : Int := 0
  release_time_minutes : Int := 0
  product_id : String := ""
  priority : Int := 0
  due_date_minutes : Int := -1
  completion_time_minutes : Int := -1
  is_completed : Bool := false
deriving DecidableEq, Repr

/-- `struct Product` as AssemblyStation.cpp uses it (Product.h itself is
not among the given sources; the two fields read there — `bom` and
`base_assembly_time_minutes` — match spec section 3: bill of materials and
base assembly duration). -/
structure Product where
  bom : CompMap
  base_assembly_time_minutes : Int
deriving DecidableEq, Repr

/-- The product catalog `std::map<std::string, Product>`. -/
abbrev Catalog := List (String × Product)

/-- `map::find` on the catalog. -/
def catFind : Catalog → String → Option Product
  | [], _ => none
  | (k, p) :: rest, c => if k = c then some p else catFind rest c

/-- The AssemblyStation state the order-processing path touches: the
warehouse, the (possibly null) AGV fleet and product catalog pointers, the
simulation clock, the configured setup time (constructor value 5), and the
two statistics counters. -/
structure AssemblyStation where
  warehouse : Warehouse
  agv_fleet : Option (List AGV)
  products : Option Catalog
  current_sim_time_minutes : Int
  setup_time_minutes : Int := 5
  total_busy_time_minutes : Int := 0
  orders_completed : Int := 0
deriving Repr

/-- `AssemblyStation::calculate_operation_time`: base assembly time plus
setup time, with the fallback 30 + setup when the catalog is unset or the
product unknown. -/
def AssemblyStation.calculate_operation_time (s : AssemblyStation)
    (product_id : String) : Int :=
  match s.products with
  | none => 30 + s.setup_time_minutes
  | some prods =>
      match catFind prods product_id with
      | none => 30 + s.setup_time_minutes
      | some p => p.base_assembly_time_minutes + s.setup_time_minutes

/-- A throwaway AGV used as the default of in-range list indexing. -/
def defaultAGV : AGV := AGV.init 0

/-- The inner loop of the dispatch in `AssemblyStation::request_components`:
probe offsets `i, i+1, ...` from `agv_index` (each taken mod fleet size,
at most `fuel` probes, `fleet.length` at the top call — the loop bound
`i < agv_fleet->size()`) and return the first offset whose AGV is idle. -/
def findIdleOffsetAux (fleet : List AGV) (agv_index : Nat) : Nat → Nat → Option Nat
  | _, 0 => none
  | i, fuel + 1 =>
      if i < fleet.length then
        if (fleet.getD ((agv_index + i) % fleet.length) defaultAGV).is_idle then some i
        else findIdleOffsetAux fleet agv_index (i + 1) fuel
      else none

/-- The full inner scan `for (size_t i = 0; i < size; i++)`. -/
def findIdleOffset (fleet : List AGV) (agv_index : Nat) : Option Nat :=
  findIdleOffsetAux fleet agv_index 0 fleet.length

/-- The outer dispatch loop of `AssemblyStation::request_components`: for
each bill-of-materials entry, scan for an idle AGV starting at the local
round-robin index, assign it the transport task (destination
"ASSEMBLY_STATION") and advance the index one past the chosen AGV; when no
AGV is idle the component is skipped ("simplified handling" in the code). -/
def dispatchComponents (fleet : List AGV) (agv_index : Nat) : CompMap → List AGV
  | [] => fleet
  | (cid, q) :: rest =>
      match findIdleOffset fleet agv_index with
      | some i =>
          let pos := (agv_index + i) % fleet.length
          dispatchComponents
            (fleet.set pos ((fleet.getD pos defaultAGV).assign_task cid q "ASSEMBLY_STATION"))
            ((agv_index + i + 1) % fleet.length) rest
      | none => dispatchComponents fleet agv_index rest

/-- `AssemblyStation::request_components`: resolve the catalog and the
product (false on either failure, no state change), reserve the bill of
materials (false if short, warehouse unchanged), then — only after the
reservation already deducted — check the fleet pointer: if it is null or
empty, run the "rollback" that is in fact a second `reserve_components`
call, and return false; otherwise dispatch one transport task per
component with a round-robin index local to this call starting at 0.
(`wait_for_components` is a fixed sleep with no state effect.) -/
def AssemblyStation.request_components (s : AssemblyStation) (product_id : String) :
    Bool × AssemblyStation :=
  match s.products with
  | none => (false, s)
  | some prods =>
      match catFind prods product_id with
      | none => (false, s)
      | some product =>
          if (s.warehouse.reserve_components product.bom).1 = false then
            (false, { s with warehouse := (s.warehouse.reserve_components product.bom).2 })
          else
            match s.agv_fleet with
            | none =>
                (false, { s with warehouse :=
                    ((s.warehouse.reserve_components product.bom).2.reserve_components
                      product.bom).2 })
            | some fleet =>
                if fleet.isEmpty then
                  (false, { s with warehouse :=
                      ((s.warehouse.reserve_components product.bom).2.reserve_components
                        product.bom).2 })
                else
                  (true, { s with
                      warehouse := (s.warehouse.reserve_components product.bom).2,
                      agv_fleet := some (dispatchComponents fleet 0 product.bom) })

/-- The per-order body of `AssemblyStation::process_orders`: on a
successful component request, accumulate busy time, mark the order
completed at `current_sim_time + operation_time`, count it and emit the
finished product; on failure the order is dropped with whatever state
`request_components` left behind. -/
def AssemblyStation.processOrder (s : AssemblyStation) (order : Order) :
    AssemblyStation × Order :=
  let r := s.request_components order.product_id
  if r.1 then
    let s1 := r.2
    let op := s1.calculate_operation_time order.product_id
    ({ s1 with
        total_busy_time_minutes := s1.total_busy_time_minutes + op,
        orders_completed := s1.orders_completed + 1,
        warehouse := s1.warehouse.add_finished_product order.product_id },
     { order with is_completed := true,
                  completion_time_minutes := s1.current_sim_time_minutes + op })
  else (r.2, order)

/-- The Bool a reservation returns is exactly the availability check. -/
theorem reserve_components_fst (w : Warehouse) (req : CompMap) :
    (w.reserve_components req).1 = hasAll w.components req := by
  unfold Warehouse.reserve_components
  by_cases h : hasAll w.components req = true <;> simp [h]

/-- A successful reservation deducts via `deductAll` and touches nothing
else. -/
theorem reserve_components_true_snd (w : Warehouse) (req : CompMap)
    (h : hasAll w.components req = true) :
    (w.reserve_components req).2 = { w with components := deductAll w.components req } := by
  unfold Warehouse.reserve_components
  rw [if_pos h]

/-! ### C6: unknown product (or unset catalog) rejects the order untouched -/

/-- **C6.** When the catalog pointer is unset or the order's product id is
absent from the catalog, `process_orders` drops the order with no effect
at all: the station (busy time, completed count, warehouse, fleet) and the
order (completion flag and time) come back exactly as they went in. -/
theorem C6_unknown_product_rejected (s : AssemblyStation) (order : Order)
    (h : s.products = none ∨
         ∃ prods, s.products = some prods ∧ catFind prods order.product_id = none) :
    s.processOrder order = (s, order) := by
  unfold AssemblyStation.processOrder AssemblyStation.request_components
  rcases h with h | ⟨prods, hp, hf⟩
  · simp [h]
  · simp [hp, hf]

/-- A station whose catalog knows only product p1, used by witnesses. -/
def stationU : AssemblyStation :=
  { warehouse := wA, agv_fleet := some [AGV.init 1],
    products := some [("p1", ⟨[("c1", 2)], 20⟩)], current_sim_time_minutes := 0 }

/-- C6 instantiated at a concrete station and an unknown product id. -/
theorem C6_unknown_product_rejected_witness :
    (stationU.products = none ∨
      ∃ prods, stationU.products = some prods ∧ catFind prods "zzz" = none) ∧
    stationU.processOrder { product_id := "zzz" }
      = (stationU, { product_id := "zzz" }) :=
  ⟨Or.inr ⟨[("p1", ⟨[("c1", 2)], 20⟩)], rfl, by decide⟩,
   C6_unknown_product_rejected stationU { product_id := "zzz" }
     (Or.inr ⟨[("p1", ⟨[("c1", 2)], 20⟩)], rfl, by decide⟩)⟩

/-! ### C5: completion time of a completed order -/

/-- Inverting a successful `request_components`: the catalog was set, the
product was found, the fleet was a non-empty vector, the warehouse could
satisfy the bill of materials, and the resulting station carries the
deducted warehouse and the dispatched fleet with everything else as
before. -/
theorem request_components_true (s : AssemblyStation) (pid : String)
    (h : (s.request_components pid).1 = true) :
    ∃ prods product fleet,
      s.products = some prods ∧ catFind prods pid = some product ∧
      s.agv_fleet = some fleet ∧ fleet.isEmpty = false ∧
      hasAll s.warehouse.components product.bom = true ∧
      (s.request_components pid).2 =
        { s with warehouse := (s.warehouse.reserve_components product.bom).2,
                 agv_fleet := some (dispatchComponents fleet 0 product.bom) } := by
  cases hp : s.products with
  | none =>
      have hresult : s.request_components pid = (false, s) := by
        unfold AssemblyStation.request_components
        simp only [hp]
      rw [hresult] at h
      exact absurd h (by simp)
  | some prods =>
      cases hf : catFind prods pid with
      | none =>
          have hresult : s.request_components pid = (false, s) := by
            unfold AssemblyStation.request_components
            simp only [hp, hf]
          rw [hresult] at h
          exact absurd h (by simp)
      | some product =>
          by_cases hr : (s.warehouse.reserve_components product.bom).1 = false
          · have hresult : (s.request_components pid).1 = false := by
              unfold AssemblyStation.request_components
              simp only [hp, hf]
              rw [if_pos hr]
            rw [hresult] at h
            exact absurd h (by simp)
          · cases hfl : s.agv_fleet with
            | none =>
                have hresult : (s.request_components pid).1 = false := by
                  unfold AssemblyStation.request_components
                  simp only [hp, hf, hfl]
                  rw [if_neg hr]
                rw [hresult] at h
                exact absurd h (by simp)
            | some fleet =>
                by_cases he : fleet.isEmpty = true
                · have hresult : (s.request_components pid).1 = false := by
                    unfold AssemblyStation.request_components
                    simp only [hp, hf, hfl]
                    rw [if_neg hr, if_pos he]
                  rw [hresult] at h
                  exact absurd h (by simp)
                · have hresult : s.request_components pid
                      = (true, { s with
                          warehouse := (s.warehouse.reserve_components product.bom).2,
                          agv_fleet := some (dispatchComponents fleet 0 product.bom) }) := by
                    unfold AssemblyStation.request_components
                    simp only [hp, hf, hfl]
                    rw [if_neg hr, if_neg he]
                  refine ⟨prods, product, fleet, rfl, hf, rfl,
                    Bool.not_eq_true _ ▸ he, ?_, by rw [hresult, hp]⟩
                  have hfst := reserve_components_fst s.warehouse product.bom
                  rw [Bool.not_eq_false] at hr
                  rw [hr] at hfst
                  exact hfst.symm

/-- **C5.** Every order the station marks completed was completed at
`current_sim_time + (base_assembly_time + setup_time)` for its catalog
product; provided the simulation clock has reached the order's release
time when the order is processed (spec: the ControlCenter — not among the
given sources — releases an order only once the clock reaches its release
time), the completion time is at least release time plus base assembly
time plus setup time. -/
theorem C5_completion_time (s : AssemblyStation) (order : Order)
    (hrel : order.release_time_minutes ≤ s.current_sim_time_minutes)
    (h0 : order.is_completed = false)
    (hc : (s.processOrder order).2.is_completed = true) :
    ∃ prods product, s.products = some prods ∧
      catFind prods order.product_id = some product ∧
      order.release_time_minutes
          + (product.base_assembly_time_minutes + s.setup_time_minutes)
        ≤ (s.processOrder order).2.completion_time_minutes := by
  by_cases hreq : (s.request_components order.product_id).1 = true
  · obtain ⟨prods, product, fleet, hp, hf, hfl, hne, hav, hs2⟩ :=
      request_components_true s order.product_id hreq
    refine ⟨prods, product, hp, hf, ?_⟩
    have hop : (s.request_components order.product_id).2.calculate_operation_time
          order.product_id
        = product.base_assembly_time_minutes + s.setup_time_minutes := by
      rw [hs2]
      unfold AssemblyStation.calculate_operation_time
      simp only [hp, hf]
    have hsim : (s.request_components order.product_id).2.current_sim_time_minutes
        = s.current_sim_time_minutes := by
      rw [hs2]
    have hcomp : (s.processOrder order).2.completion_time_minutes
        = (s.request_components order.product_id).2.current_sim_time_minutes
          + (s.request_components order.product_id).2.calculate_operation_time
              order.product_id := by
      simp only [AssemblyStation.processOrder]
      rw [if_pos hreq]
    rw [hcomp, hop, hsim]
    omega
  · exfalso
    have hord : (s.processOrder order).2 = order := by
      simp only [AssemblyStation.processOrder]
      rw [if_neg hreq]
    rw [hord, h0] at hc
    exact Bool.false_ne_true hc

/-- A station that can complete product p1 and an order for it, for the C5
witness. -/
def stationW : AssemblyStation :=
  { warehouse := ⟨[("c1", 10)], []⟩, agv_fleet := some [AGV.init 1],
    products := some [("p1", ⟨[("c1", 2)], 20⟩)], current_sim_time_minutes := 30 }

/-- A released order for product p1. -/
def orderW : Order := { release_time_minutes := 10, product_id := "p1" }

/-- C5 instantiated at a station that completes a concrete order. -/
theorem C5_completion_time_witness :
    orderW.release_time_minutes ≤ stationW.current_sim_time_minutes ∧
    orderW.is_completed = false ∧
    (stationW.processOrder orderW).2.is_completed = true ∧
    (∃ prods product, stationW.products = some prods ∧
      catFind prods orderW.product_id = some product ∧
      orderW.release_time_minutes
          + (product.base_assembly_time_minutes + stationW.setup_time_minutes)
        ≤ (stationW.processOrder orderW).2.completion_time_minutes) :=
  ⟨by decide, by decide, by decide,
   C5_completion_time stationW orderW (by decide) (by decide) (by decide)⟩

/-! ### C8: round-robin dispatch -/

/-- What a successful inner scan means: the returned offset is in range,
its AGV is idle, and every smaller offset probed (from the start offset
on) held a non-idle AGV. -/
theorem findIdleOffsetAux_spec (fleet : List AGV) (idx : Nat) (fuel i0 i : Nat)
    (h : findIdleOffsetAux fleet idx i0 fuel = some i) :
    i0 ≤ i ∧ i < fleet.length ∧
    (fleet.getD ((idx + i) % fleet.length) defaultAGV).is_idle = true ∧
    (∀ j, i0 ≤ j → j < i →
      (fleet.getD ((idx + j) % fleet.length) defaultAGV).is_idle = false) := by
  induction fuel generalizing i0 with
  | zero => exact absurd h (by simp [findIdleOffsetAux])
  | succ fuel ih =>
      unfold findIdleOffsetAux at h
      by_cases hlt : i0 < fleet.length
      · rw [if_pos hlt] at h
        by_cases hid : (fleet.getD ((idx + i0) % fleet.length) defaultAGV).is_idle = true
        · rw [if_pos hid] at h
          obtain rfl : i0 = i := Option.some.inj h
          exact ⟨le_refl _, hlt, hid, fun j hj hji => absurd (lt_of_le_of_lt hj hji)
            (lt_irrefl _)⟩
        · rw [if_neg hid] at h
          obtain ⟨h1, h2, h3, h4⟩ := ih (i0 + 1) h
          refine ⟨le_trans (Nat.le_succ _) h1, h2, h3, ?_⟩
          intro j hj hji
          rcases Nat.lt_or_ge j (i0 + 1) with hj1 | hj1
          · have hji0 : j = i0 := by omega
            subst hji0
            exact Bool.not_eq_true _ ▸ hid
          · exact h4 j hj1 hji
      · rw [if_neg hlt] at h
        cases h

/-- **C8, amended.** Within one `request_components` call the dispatch is
round-robin with an index local to the call: for each component, the
station scans offsets 0, 1, ..., size−1 from the current index, the AGV it
settles on is idle while every AGV at a smaller offset is not, the chosen
AGV receives exactly the task (component id, required quantity,
destination ASSEMBLY_STATION), and the remaining components are dispatched
with the index placed one past the chosen AGV. (The index starts at 0 on
every call — it does not survive from one order's dispatch to the next,
which is what the unamended claim asserted.) -/
theorem C8_round_robin_step (fleet : List AGV) (agv_index : Nat) (cid : String)
    (q : Int) (rest : CompMap) (i : Nat)
    (hfind : findIdleOffset fleet agv_index = some i) :
    (fleet.getD ((agv_index + i) % fleet.length) defaultAGV).is_idle = true ∧
    (∀ j, j < i →
      (fleet.getD ((agv_index + j) % fleet.length) defaultAGV).is_idle = false) ∧
    ((fleet.getD ((agv_index + i) % fleet.length) defaultAGV).assign_task cid q
        "ASSEMBLY_STATION").current_task
      = ⟨cid, q, "ASSEMBLY_STATION", false⟩ ∧
    dispatchComponents fleet agv_index ((cid, q) :: rest)
      = dispatchComponents
          (fleet.set ((agv_index + i) % fleet.length)
            ((fleet.getD ((agv_index + i) % fleet.length) defaultAGV).assign_task cid q
              "ASSEMBLY_STATION"))
          ((agv_index + i + 1) % fleet.length) rest := by
  obtain ⟨-, hlen, hid, hmin⟩ :=
    findIdleOffsetAux_spec fleet agv_index fleet.length 0 i hfind
  have hcond : (fleet.getD ((agv_index + i) % fleet.length) defaultAGV).state
        = AGVState.IDLE ∧
      (fleet.getD ((agv_index + i) % fleet.length) defaultAGV).current_task.component_id
        = "" := by
    have := hid
    unfold AGV.is_idle at this
    exact of_decide_eq_true this
  refine ⟨hid, fun j hj => hmin j (Nat.zero_le _) hj, ?_, ?_⟩
  · unfold AGV.assign_task
    rw [if_pos hcond]
  · conv_lhs => unfold dispatchComponents
    rw [hfind]

/-- A fleet whose first AGV is busy and second is idle, for the C8
witness. -/
def fleetB : List AGV := [agvBusy, AGV.init 2]

/-- C8 (amended) instantiated: with AGV 0 busy, the scan from index 0
settles on offset 1. -/
theorem C8_round_robin_step_witness :
    findIdleOffset fleetB 0 = some 1 ∧
    ((fleetB.getD ((0 + 1) % fleetB.length) defaultAGV).is_idle = true ∧
     (∀ j, j < 1 →
       (fleetB.getD ((0 + j) % fleetB.length) defaultAGV).is_idle = false) ∧
     ((fleetB.getD ((0 + 1) % fleetB.length) defaultAGV).assign_task "c9" 4
         "ASSEMBLY_STATION").current_task
       = ⟨"c9", 4, "ASSEMBLY_STATION", false⟩ ∧
     dispatchComponents fleetB 0 ((("c9", 4)) :: [])
       = dispatchComponents
           (fleetB.set ((0 + 1) % fleetB.length)
             ((fleetB.getD ((0 + 1) % fleetB.length) defaultAGV).assign_task "c9" 4
               "ASSEMBLY_STATION"))
           ((0 + 1 + 1) % fleetB.length) []) :=
  ⟨by decide, C8_round_robin_step fleetB 0 "c9" 4 [] 1 (by decide)⟩

/-- A two-AGV fleet, a one-component product, and plenty of stock. -/
def stationRR : AssemblyStation :=
  { warehouse := ⟨[("c1", 10)], []⟩, agv_fleet := some [AGV.init 0, AGV.init 1],
    products := some [("p1", ⟨[("c1", 1)], 20⟩)], current_sim_time_minutes := 0 }

/-- stationRR after one dispatched order whose chosen AGV has since
completed its task: the whole fleet is idle again. -/
def stationRR2 : AssemblyStation :=
  { (stationRR.request_components "p1").2 with
    agv_fleet := some ((((stationRR.request_components "p1").2.agv_fleet).getD []).map
      AGV.runCycle) }

/-- **C8, counterexample.** The round-robin index is a local variable
re-initialised to 0 on every `request_components` call, so it does not
continue "one past the AGV chosen by the previous dispatch" across orders:
the first order's dispatch chooses AGV 0; after that AGV completes, both
AGVs are idle, yet the second order's dispatch chooses AGV 0 again and
leaves AGV 1 without a task — the claimed cross-order round-robin would
have chosen AGV 1. -/
theorem C8_counterexample :
    ((((stationRR.request_components "p1").2.agv_fleet).getD []).getD 0
        defaultAGV).current_task.component_id = "c1" ∧
    ((((stationRR.request_components "p1").2.agv_fleet).getD []).getD 1
        defaultAGV).current_task.component_id = "" ∧
    (((stationRR2.agv_fleet).getD []).getD 0 defaultAGV).is_idle = true ∧
    (((stationRR2.agv_fleet).getD []).getD 1 defaultAGV).is_idle = true ∧
    ((((stationRR2.request_components "p1").2.agv_fleet).getD []).getD 0
        defaultAGV).current_task.component_id = "c1" ∧
    ((((stationRR2.request_components "p1").2.agv_fleet).getD []).getD 1
        defaultAGV).current_task.component_id = "" := by
  decide

/-! ### C10: the missing-fleet "rollback" deducts a second time -/

/-- **C10.** If the product is in the catalog and the warehouse satisfies
its bill of materials but the AGV-fleet pointer is null or the fleet
vector is empty, `request_components` returns false yet never restores the
already-deducted components: its "rollback" is a second
`reserve_components` call, so the final warehouse is the result of two
successive reservations — and whenever the once-deducted inventory still
satisfies the bill of materials, every requested component ends up
deducted twice. -/
theorem C10_failed_dispatch_double_deduct (s : AssemblyStation) (pid : String)
    (prods : Catalog) (product : Product)
    (hp : s.products = some prods) (hf : catFind prods pid = some product)
    (hav : s.warehouse.has_components product.bom = true)
    (hfl : s.agv_fleet = none ∨ s.agv_fleet = some []) :
    (s.request_components pid).1 = false ∧
    (s.request_components pid).2.warehouse
      = ((s.warehouse.reserve_components product.bom).2.reserve_components
          product.bom).2 ∧
    ((product.bom.map Prod.fst).Nodup →
      (s.warehouse.reserve_components product.bom).2.has_components product.bom
        = true →
      ∀ p ∈ product.bom,
        (s.request_components pid).2.warehouse.get_component_quantity p.1
          = s.warehouse.get_component_quantity p.1 - 2 * p.2) := by
  have htrue : (s.warehouse.reserve_components product.bom).1 = true := by
    rw [reserve_components_fst]
    exact hav
  have hr : ¬ (s.warehouse.reserve_components product.bom).1 = false := by
    rw [htrue]
    simp
  have hresult : s.request_components pid
      = (false, { s with warehouse :=
          ((s.warehouse.reserve_components product.bom).2.reserve_components
            product.bom).2 }) := by
    unfold AssemblyStation.request_components
    rcases hfl with hfl | hfl
    · simp only [hp, hf, hfl]
      rw [if_neg hr]
    · simp only [hp, hf, hfl]
      rw [if_neg hr]
      simp
  refine ⟨by rw [hresult], by rw [hresult], ?_⟩
  intro hnd h2 p hp2
  rw [hresult]
  have hw1 : (s.warehouse.reserve_components product.bom).2.components
      = deductAll s.warehouse.components product.bom := by
    rw [reserve_components_true_snd s.warehouse product.bom hav]
  have h2' : hasAll (s.warehouse.reserve_components product.bom).2.components
      product.bom = true := h2
  have hfinal : ((s.warehouse.reserve_components product.bom).2.reserve_components
        product.bom).2.components
      = deductAll (s.warehouse.reserve_components product.bom).2.components
          product.bom := by
    rw [reserve_components_true_snd _ _ h2']
  have e1 := deductAll_find_mem product.bom
    (s.warehouse.reserve_components product.bom).2.components p.1 p.2 hnd hp2
  have e2 := deductAll_find_mem product.bom s.warehouse.components p.1 p.2 hnd hp2
  show ((s.warehouse.reserve_components product.bom).2.reserve_components
      product.bom).2.get_component_quantity p.1
    = s.warehouse.get_component_quantity p.1 - 2 * p.2
  unfold Warehouse.get_component_quantity
  rw [hfinal, e1]
  have hmg : mapGet (s.warehouse.reserve_components product.bom).2.components p.1
      = mapGet s.warehouse.components p.1 - p.2 := by
    unfold mapGet
    rw [hw1, e2]
    rfl
  rw [Option.getD_some, hmg]
  unfold mapGet
  omega

/-- A station with stock for p1 but an empty AGV fleet, for the C10
witness. -/
def stationNF : AssemblyStation :=
  { warehouse := ⟨[("c1", 10)], []⟩, agv_fleet := some [],
    products := some [("p1", ⟨[("c1", 3)], 20⟩)], current_sim_time_minutes := 0 }

/-- C10 instantiated: ten units of c1, a bill of three, an empty fleet —
the call fails and leaves four units (two deductions of three), not
seven. -/
theorem C10_failed_dispatch_double_deduct_witness :
    stationNF.products = some [("p1", ⟨[("c1", 3)], 20⟩)] ∧
    catFind [("p1", ⟨[("c1", 3)], 20⟩)] "p1" = some ⟨[("c1", 3)], 20⟩ ∧
    stationNF.warehouse.has_components (Product.mk [("c1", 3)] 20).bom = true ∧
    (stationNF.agv_fleet = none ∨ stationNF.agv_fleet = some []) ∧
    ((stationNF.request_components "p1").1 = false ∧
     (stationNF.request_components "p1").2.warehouse
       = ((stationNF.warehouse.reserve_components (Product.mk [("c1", 3)] 20).bom).2.reserve_components
           (Product.mk [("c1", 3)] 20).bom).2 ∧
     (((Product.mk [("c1", 3)] 20).bom.map Prod.fst).Nodup →
       (stationNF.warehouse.reserve_components
           (Product.mk [("c1", 3)] 20).bom).2.has_components
           (Product.mk [("c1", 3)] 20).bom = true →
       ∀ p ∈ (Product.mk [("c1", 3)] 20).bom,
         (stationNF.request_components "p1").2.warehouse.get_component_quantity p.1
           = stationNF.warehouse.get_component_quantity p.1 - 2 * p.2)) :=
  ⟨rfl, by decide, by decide, Or.inr rfl,
   C10_failed_dispatch_double_deduct stationNF "p1" [("p1", ⟨[("c1", 3)], 20⟩)]
     ⟨[("c1", 3)], 20⟩ rfl (by decide) (by decide) (Or.inr rfl)⟩

end FAS
